import Mathlib

/-!
Verification development for the `python-simpledb` client library.

The definitions below are a shallow embedding of `simpledb/simpledb.py`,
`simpledb/models.py` and the batch loader of `test.py`: Python classes become
structures, methods become functions, Python exceptions become `Except`, and
Python dictionaries become association lists.  Machine-level operations
(SHA-256, HMAC, base64, percent-encoding) are spelled out over `Nat` byte
lists, mirroring the Python standard-library routines (`hashlib.sha256`,
`hmac.new`, `base64.b64encode`, `urllib.quote`) that the source calls.
-/

namespace SDB

/-! ### Byte/char utilities -/

/-- UTF-8 encoding of one character, as the list of its bytes (each < 256).
Mirrors the encoding `_utf8_str`/`str.encode('utf-8')` performs in Python. -/
def utf8Char (c : Char) : List Nat :=
  let n := c.toNat
  if n < 128 then [n]
  else if n < 2048 then [192 + n / 64, 128 + n % 64]
  else if n < 65536 then [224 + n / 4096, 128 + n / 64 % 64, 128 + n % 64]
  else [240 + n / 262144, 128 + n / 4096 % 64, 128 + n / 64 % 64, 128 + n % 64]

/-- UTF-8 encoding of a string as a byte list. -/
def utf8Encode (s : String) : List Nat := (s.data.map utf8Char).flatten

def hexDigitUpper (n : Nat) : Char :=
  if n < 10 then Char.ofNat (48 + n) else Char.ofNat (55 + n)

def hexDigitLower (n : Nat) : Char :=
  if n < 10 then Char.ofNat (48 + n) else Char.ofNat (87 + n)

/-- Two uppercase hex digits of a byte, as in Python's `'%%%02X'` escape. -/
def hexByteUpper (b : Nat) : String := String.mk [hexDigitUpper (b / 16), hexDigitUpper (b % 16)]

/-- Lowercase hex rendering of a byte list (as `hexdigest` would produce). -/
def bytesToHex (bs : List Nat) : String :=
  String.mk ((bs.map fun b => [hexDigitLower (b / 16), hexDigitLower (b % 16)]).flatten)

/-- Python 2 string comparison (`<`) on two character lists: lexicographic by
code point, shorter prefixes sort first. -/
def listLtB : List Char → List Char → Bool
  | [], [] => false
  | [], _ :: _ => true
  | _ :: _, [] => false
  | a :: as, b :: bs => if a < b then true else if b < a then false else listLtB as bs

/-- Python 2 string `<`. -/
def pyStrLt (s t : String) : Bool := listLtB s.data t.data

/-- Join a list of strings with a separator, as Python's `sep.join(...)`. -/
def joinSep (sep : String) : List String → String
  | [] => ""
  | [x] => x
  | x :: xs => x ++ sep ++ joinSep sep xs

/-! ### `escape` / `urlencode` (simpledb.py lines 54-61) -/

/-- Bytes left unescaped by `urllib.quote(s, safe='-_~')`: Python 2's
`always_safe` set (ASCII letters, digits, `_`, `.`, `-`) together with the
`safe` argument `-_~`. -/
def quoteSafeByte (b : Nat) : Bool :=
  (48 ≤ b && b ≤ 57) || (65 ≤ b && b ≤ 90) || (97 ≤ b && b ≤ 122) ||
    b == 95 || b == 46 || b == 45 || b == 126

/-- `escape(s) = urllib.quote(s, safe='-_~')`: percent-encode the UTF-8 bytes
of `s`, leaving only `quoteSafeByte` bytes literal. -/
def escape (s : String) : String :=
  joinSep "" ((utf8Encode s).map fun b =>
    if quoteSafeByte b then String.mk [Char.ofNat b] else "%" ++ hexByteUpper b)

/-- `urlencode`: `'&'.join('%s=%s' % (escape(k), escape(v)) ...)`. -/
def urlencode (params : List (String × String)) : String :=
  joinSep "&" (params.map fun p => escape p.1 ++ "=" ++ escape p.2)

/-! ### Sorting of request parameters (Python `sorted` on key/value tuples) -/

def insertLeB (le : α → α → Bool) (x : α) : List α → List α
  | [] => [x]
  | y :: ys => if le x y then x :: y :: ys else y :: insertLeB le x ys

/-- Insertion sort; agrees with Python's `sorted` for any total preorder
because both return the stable sorted permutation. -/
def sortLeB (le : α → α → Bool) : List α → List α
  | [] => []
  | x :: xs => insertLeB le x (sortLeB le xs)

/-- Python tuple comparison `(k, v) <= (k', v')` on string pairs. -/
def pairLe (a b : String × String) : Bool :=
  pyStrLt a.1 b.1 || (a.1 == b.1 && (pyStrLt a.2 b.2 || a.2 == b.2))

/-- Comparison of parameter pairs by key only ("sorted by parameter name"). -/
def keyLe (a b : String × String) : Bool := pyStrLt a.1 b.1 || a.1 == b.1

/-! ### URL parsing (`urlparse` as used by the normalized host/path) -/

def strUpper (s : String) : String := String.mk (s.data.map Char.toUpper)

def strLower (s : String) : String := String.mk (s.data.map Char.toLower)

def startsWithSub : List Char → List Char → Bool
  | [], _ => true
  | _ :: _, [] => false
  | a :: as, b :: bs => a == b && startsWithSub as bs

/-- Fuel-driven split of a character list on a non-empty separator
`c0 :: crest`, as Python's `str.split(sep)`. -/
def splitSubAux (c0 : Char) (crest : List Char) : Nat → List Char → List (List Char)
  | _, [] => [[]]
  | 0, l => [l]
  | fuel + 1, c :: rest =>
      if startsWithSub (c0 :: crest) (c :: rest) then
        [] :: splitSubAux c0 crest fuel (rest.drop crest.length)
      else
        match splitSubAux c0 crest fuel rest with
        | [] => [[c]]
        | seg :: segs => (c :: seg) :: segs

/-- Python's `s.split(sep)` for a non-empty separator. -/
def pySplit (sep s : String) : List String :=
  match sep.data with
  | [] => [s]
  | c0 :: crest => (splitSubAux c0 crest s.data.length s.data).map String.mk

/-- Modelled from Python stdlib `urlparse` for the URL shapes this library
builds (`scheme://host[/path][?query]`): returns `(netloc, path)`.  Inputs
without `://` have an empty netloc and are treated wholly as path. -/
def urlparseHostPath (url : String) : String × String :=
  match pySplit "://" url with
  | [] => ("", "")
  | [_] => ("", String.mk (url.data.takeWhile fun c => !(c == '?' || c == '#')))
  | _ :: rest =>
      let after := joinSep "://" (rest.map id)
      let netloc := after.data.takeWhile fun c => !(c == '/' || c == '?' || c == '#')
      let remainder := after.data.drop netloc.length
      let path := remainder.takeWhile fun c => !(c == '?' || c == '#')
      (String.mk netloc, String.mk path)

/-! ### Request and the canonical signature base string (simpledb.py 64-164) -/

/-- The `Request` object: method, url, and the parameter dictionary (modelled
as an association list; all parameters are already `str`, so `_utf8_str` is
the identity on them). -/
structure Request where
  method : String
  url : String
  parameters : List (String × String)

/-- `Request.get_normalized_parameters`: all parameters except `Signature`,
sorted (Python sorts the `(k, v)` tuples), url-encoded. -/
def Request.getNormalizedParameters (r : Request) : String :=
  urlencode (sortLeB pairLe (r.parameters.filter fun p => p.1 != "Signature"))

def Request.getNormalizedHttpMethod (r : Request) : String := strUpper r.method

def Request.getNormalizedHttpHost (r : Request) : String :=
  strLower (urlparseHostPath r.url).1

def Request.getNormalizedHttpPath (r : Request) : String :=
  let p := (urlparseHostPath r.url).2
  if p = "" then "/" else p

/-- `SignatureMethod.build_signature_base_string`: newline-join of normalized
method, host, path and parameters. -/
def buildSignatureBaseString (r : Request) : String :=
  joinSep "\n" [r.getNormalizedHttpMethod, r.getNormalizedHttpHost,
    r.getNormalizedHttpPath, r.getNormalizedParameters]

/-! ### SHA-256, HMAC, base64 (the `hashlib`/`hmac`/`base64` calls of
`SignatureMethod_HMAC_SHA256.build_signature`).  The hash constants are
computed from their defining formulas (fractional parts of square/cube roots
of the first primes) rather than transcribed. -/

def M32 : Nat := 4294967296

def rotr32 (k x : Nat) : Nat := x / 2 ^ k + x % 2 ^ k * 2 ^ (32 - k)

def shr32 (k x : Nat) : Nat := x / 2 ^ k

def not32 (x : Nat) : Nat := 4294967295 - x

def first64Primes : List Nat :=
  [2, 3, 5, 7, 11, 13, 17, 19, 23, 29, 31, 37, 41, 43, 47, 53, 59, 61, 67, 71,
   73, 79, 83, 89, 97, 101, 103, 107, 109, 113, 127, 131, 137, 139, 149, 151,
   157, 163, 167, 173, 179, 181, 191, 193, 197, 199, 211, 223, 227, 229, 233,
   239, 241, 251, 257, 263, 269, 271, 277, 281, 283, 293, 307, 311]

/-- Binary search for the largest `x` in `[lo, hi)` with `f x = true`, given
`f lo = true`; fuel-driven so that it evaluates in the kernel. -/
def bsearchAux (f : Nat → Bool) : Nat → Nat → Nat → Nat
  | 0, lo, _ => lo
  | fuel + 1, lo, hi =>
      if hi ≤ lo + 1 then lo
      else
        let mid := (lo + hi) / 2
        if f mid then bsearchAux f fuel mid hi else bsearchAux f fuel lo mid

/-- Integer square root (floor). -/
def intSqrt (n : Nat) : Nat := bsearchAux (fun r => decide (r * r ≤ n)) 160 0 (n + 1)

/-- Integer cube root (floor). -/
def intCbrt (n : Nat) : Nat := bsearchAux (fun r => decide (r * r * r ≤ n)) 160 0 (n + 1)

/-- SHA-256 initial state: first 32 bits of the fractional parts of the square
roots of the first 8 primes. -/
def sha256H0 : List Nat := (first64Primes.take 8).map fun p => intSqrt (p * 2 ^ 64) % M32

/-- SHA-256 round constants: first 32 bits of the fractional parts of the cube
roots of the first 64 primes. -/
def sha256K : List Nat := first64Primes.map fun p => intCbrt (p * 2 ^ 96) % M32

def bsig0 (x : Nat) : Nat := Nat.xor (Nat.xor (rotr32 2 x) (rotr32 13 x)) (rotr32 22 x)

def bsig1 (x : Nat) : Nat := Nat.xor (Nat.xor (rotr32 6 x) (rotr32 11 x)) (rotr32 25 x)

def ssig0 (x : Nat) : Nat := Nat.xor (Nat.xor (rotr32 7 x) (rotr32 18 x)) (shr32 3 x)

def ssig1 (x : Nat) : Nat := Nat.xor (Nat.xor (rotr32 17 x) (rotr32 19 x)) (shr32 10 x)

def chf (e f g : Nat) : Nat := Nat.xor (e &&& f) (not32 e &&& g)

def maj (a b c : Nat) : Nat := Nat.xor (Nat.xor (a &&& b) (a &&& c)) (b &&& c)

def bytesToWords : List Nat → List Nat
  | b0 :: b1 :: b2 :: b3 :: rest =>
      (((b0 * 256 + b1) * 256 + b2) * 256 + b3) :: bytesToWords rest
  | _ => []

def wordToBytes (w : Nat) : List Nat :=
  [w / 16777216 % 256, w / 65536 % 256, w / 256 % 256, w % 256]

/-- Extend the 16-word block schedule by `k` further words. -/
def extendSchedule : Nat → List Nat → List Nat
  | 0, ws => ws
  | k + 1, ws =>
      let n := ws.length
      let next := (ssig1 (ws.getD (n - 2) 0) + ws.getD (n - 7) 0 +
        ssig0 (ws.getD (n - 15) 0) + ws.getD (n - 16) 0) % M32
      extendSchedule k (ws ++ [next])

def compressRound (st : List Nat) (kw : Nat × Nat) : List Nat :=
  match st with
  | [a, b, c, d, e, f, g, h] =>
      let t1 := (h + bsig1 e + chf e f g + kw.1 + kw.2) % M32
      let t2 := (bsig0 a + maj a b c) % M32
      [(t1 + t2) % M32, a, b, c, (d + t1) % M32, e, f, g]
  | other => other

def processBlock (h : List Nat) (block : List Nat) : List Nat :=
  let w := extendSchedule 48 (bytesToWords block)
  let st := (sha256K.zip w).foldl compressRound h
  List.zipWith (fun x y => (x + y) % M32) h st

/-- Big-endian byte rendering of `n` in `count` bytes. -/
def bytesBE (count n : Nat) : List Nat :=
  (List.range count).map fun i => n / 2 ^ (8 * (count - 1 - i)) % 256

/-- SHA-256 padding: `0x80`, zeros to 56 mod 64, then the 64-bit bit length. -/
def sha256Pad (msg : List Nat) : List Nat :=
  msg ++ 128 :: (List.replicate ((119 - msg.length % 64) % 64) 0 ++ bytesBE 8 (msg.length * 8))

/-- Fuel-driven chunking of a list into consecutive pieces of `k` elements. -/
def chunksAux (k : Nat) : Nat → List α → List (List α)
  | _, [] => []
  | 0, l => [l]
  | fuel + 1, l => l.take k :: chunksAux k fuel (l.drop k)

def chunksOf (k : Nat) (l : List α) : List (List α) := chunksAux k l.length l

/-- SHA-256 of a byte list, as a 32-byte list. -/
def sha256 (msg : List Nat) : List Nat :=
  ((((chunksOf 64 (sha256Pad msg)).foldl processBlock sha256H0).map wordToBytes).flatten)

/-- `hmac.new(key, msg, hashlib.sha256).digest()`. -/
def hmacSha256 (key msg : List Nat) : List Nat :=
  let k0 := if 64 < key.length then sha256 key else key
  let kp := k0 ++ List.replicate (64 - k0.length) 0
  sha256 (kp.map (Nat.xor 92) ++ sha256 (kp.map (Nat.xor 54) ++ msg))

def b64Char (n : Nat) : Char :=
  if n < 26 then Char.ofNat (65 + n)
  else if n < 52 then Char.ofNat (97 + (n - 26))
  else if n < 62 then Char.ofNat (48 + (n - 52))
  else if n = 62 then '+' else '/'

/-- `base64.b64encode` on a byte list. -/
def base64Encode : List Nat → String
  | [] => ""
  | [a] => String.mk [b64Char (a / 4), b64Char (a % 4 * 16), '=', '=']
  | [a, b] => String.mk [b64Char (a / 4), b64Char (a % 4 * 16 + b / 16), b64Char (b % 16 * 4), '=']
  | a :: b :: c :: rest =>
      String.mk [b64Char (a / 4), b64Char (a % 4 * 16 + b / 16),
        b64Char (b % 16 * 4 + c / 64), b64Char (c % 64)] ++ base64Encode rest

/-- `SignatureMethod_HMAC_SHA256.build_signature`: base64 of the HMAC-SHA256
digest of the canonical base string under the secret. -/
def buildSignature (r : Request) (awsSecret : String) : String :=
  base64Encode (hmacSha256 (utf8Encode awsSecret) (utf8Encode (buildSignatureBaseString r)))

set_option maxRecDepth 100000 in
/-- Sanity check of the SHA-256 embedding against the published test vector
for `"abc"`. -/
theorem sha256_abc_vector :
    bytesToHex (sha256 (utf8Encode "abc")) =
      "ba7816bf8f01cfea414140de5dae2223b00361a396177a9cb410ff61f20015ad" := by
  decide

/-! ### Predicate trees: the `where` class (simpledb.py 577-709) -/

def QUERY_OPERATORS : List (String × String) :=
  [("eq", "="), ("noteq", "!="), ("gt", ">"), ("gte", ">="), ("lt", "<"),
   ("lte", "<="), ("like", "like"), ("notlike", "not like"),
   ("btwn", "between"), ("in", "in")]

def RESERVED_KEYWORDS : List String :=
  ["OR", "AND", "NOT", "FROM", "WHERE", "SELECT", "LIKE", "NULL", "IS", "ORDER",
   "BY", "ASC", "DESC", "IN", "BETWEEN", "INTERSECTION", "LIMIT", "EVERY"]

/-- Attribute values as the rendering code handles them: strings, Python
`None`, or lists.  Other Python types (ints, say) raise `AttributeError`
inside `_quote` and are outside the model. -/
inductive Val where
  | str (s : String)
  | null
  | list (l : List Val)

mutual

def valBeq : Val → Val → Bool
  | .str a, .str b => a == b
  | .null, .null => true
  | .list a, .list b => valListBeq a b
  | _, _ => false

def valListBeq : List Val → List Val → Bool
  | [], [] => true
  | a :: as, b :: bs => valBeq a b && valListBeq as bs
  | _, _ => false

end

instance : BEq Val := ⟨valBeq⟩

/-- A node of a predicate tree: either a `(field, operation, value)` leaf
tuple or a nested `where` clause (its connector and children). -/
inductive WNode where
  | leaf (field op : String) (v : Val)
  | sub (conn : String) (children : List WNode)

mutual

def wnodeBeq : WNode → WNode → Bool
  | .leaf f o v, .leaf f' o' v' => f == f' && o == o' && valBeq v v'
  | .sub c l, .sub c' l' => c == c' && wnodeListBeq l l'
  | _, _ => false

def wnodeListBeq : List WNode → List WNode → Bool
  | [], [] => true
  | a :: as, b :: bs => wnodeBeq a b && wnodeListBeq as bs
  | _, _ => false

end

instance : BEq WNode := ⟨wnodeBeq⟩

/-- The `where` object (a Lean keyword, hence `Where`): a connector
(`'AND'`/`'OR'`) and an ordered list of child nodes. -/
structure Where where
  connector : String
  children : List WNode

def Where.toNode (w : Where) : WNode := .sub w.connector w.children

/-- Attribute-value encoders (`encoder(attribute, value)` closures handed to
`to_expression`; `Query` builds them from the domain's `AttributeEncoder`). -/
def Encoder : Type := String → Val → Val

/-- Key parsing in `where.__init__`: `field__operation` (a lone name means
`eq`); any other number of `__`-separated parts is a `ValueError`. -/
def parseFilterKey (key : String) : Except String (String × String) :=
  match pySplit "__" key with
  | [f] => .ok (f, "eq")
  | [f, op] => .ok (f, op)
  | _ => .error "Filter arguments should be of the form field__operation"

/-- `where.__init__`: positional args become children directly; keyword
bindings are parsed and validated against `QUERY_OPERATORS` (an invalid
operation is a `ValueError` at construction time).  Note no arity checking
happens here. -/
def whereInit (args : List WNode) (query : List (String × Val)) : Except String Where := do
  let leaves ← query.mapM fun kv => do
    let fo ← parseFilterKey kv.1
    if (QUERY_OPERATORS.lookup fo.2).isSome then
      pure (WNode.leaf fo.1 fo.2 kv.2)
    else
      Except.error (fo.2 ++ " is not a valid query operation")
  pure { connector := "AND", children := args ++ leaves }

/-- `where._quote_attribute`: back-quote names whose uppercase form is a
reserved keyword. -/
def quoteAttribute (s : String) : String :=
  if RESERVED_KEYWORDS.contains (strUpper s) then "`" ++ s ++ "`" else s

/-- `where._quote` on a string: `s.replace("'", "''")`. -/
def pyQuote (s : String) : String :=
  String.mk ((s.data.map fun c => if c = '\'' then ['\'', '\''] else [c]).flatten)

/-- `where._quote` (`s.replace("'", "''")`); only strings have `replace`, so
any other value raises `AttributeError`. -/
def quoteValue : Val → Except String String
  | .str s => .ok (pyQuote s)
  | _ => .error "AttributeError: object has no attribute replace"

/-- `where._make_condition`: encode the value, quote it, back-quote the
attribute. -/
def makeCondition (enc : Encoder) (attr operation : String) (value : Val) :
    Except String String :=
  match quoteValue (enc attr value) with
  | .error e => .error e
  | .ok q => .ok (quoteAttribute attr ++ " " ++ operation ++ " '" ++ q ++ "'")

/-- `where._make_eq_condition`: encodes, renders `IS NULL` (raw attribute) for
`None`, otherwise falls through to `_make_condition` with the already-encoded
value (which encodes it a second time). -/
def makeEqCondition (enc : Encoder) (attr operation : String) (value : Val) :
    Except String String :=
  match enc attr value with
  | .null => .ok (attr ++ " IS NULL")
  | v => makeCondition enc attr operation v

/-- `where._make_noteq_condition` (see `makeEqCondition`). -/
def makeNoteqCondition (enc : Encoder) (attr operation : String) (value : Val) :
    Except String String :=
  match enc attr value with
  | .null => .ok (attr ++ " IS NOT NULL")
  | v => makeCondition enc attr operation v

/-- Elements of a value as iterated/indexed by Python (`for v in value`,
`len(value)`): lists yield their items, strings their one-character
substrings; `None` raises `TypeError`. -/
def valElems : Val → Except String (List Val)
  | .list vs => .ok vs
  | .str s => .ok (s.data.map fun c => .str (String.mk [c]))
  | .null => .error "TypeError: not iterable"

/-- `where._make_in_condition` (no attribute back-quoting). -/
def makeInCondition (enc : Encoder) (attr operation : String) (value : Val) :
    Except String String :=
  match valElems value with
  | .error e => .error e
  | .ok vs =>
    match (vs.map (enc attr)).mapM quoteValue with
    | .error e => .error e
    | .ok qs => .ok (attr ++ " " ++ operation ++ "(" ++
        joinSep ", " (qs.map fun q => "'" ++ q ++ "'") ++ ")")

/-- `where._make_btwn_condition`: arity-checks the value (a `ValueError` at
rendering time), then encodes both endpoints (no attribute back-quoting). -/
def makeBtwnCondition (enc : Encoder) (attr _operation : String) (value : Val) :
    Except String String :=
  match valElems value with
  | .error e => .error e
  | .ok vs =>
    if vs.length ≠ 2 then
      .error "Invalid value for between clause. Requires two item list."
    else
      match quoteValue (enc attr (vs.getD 0 .null)) with
      | .error e => .error e
      | .ok lo =>
        match quoteValue (enc attr (vs.getD 1 .null)) with
        | .error e => .error e
        | .ok hi => .ok (attr ++ " between '" ++ lo ++ "' and '" ++ hi ++ "'")

/-- Leaf rendering dispatch in `where.to_expression`: look up the operator
symbol, then use the specialised `_make_*_condition` when one exists. -/
def leafCondition (enc : Encoder) (field op : String) (v : Val) : Except String String :=
  match QUERY_OPERATORS.lookup op with
  | Option.none => .error "KeyError"
  | some sym =>
    match op with
    | "eq" => makeEqCondition enc field sym v
    | "noteq" => makeNoteqCondition enc field sym v
    | "in" => makeInCondition enc field sym v
    | "btwn" => makeBtwnCondition enc field sym v
    | _ => makeCondition enc field sym v

mutual

/-- One child's contribution in `where.to_expression`: a leaf renders its
condition; a sub-clause renders parenthesized, or nothing if empty. -/
def renderNode (enc : Encoder) : WNode → Except String (List String)
  | .leaf f op v =>
      match leafCondition enc f op v with
      | .error e => .error e
      | .ok c => .ok [c]
  | .sub conn cs =>
      match renderNodes enc cs with
      | .error e => .error e
      | .ok parts =>
          let e := joinSep (" " ++ conn ++ " ") parts
          .ok (if e = "" then [] else ["(" ++ e ++ ")"])

def renderNodes (enc : Encoder) : List WNode → Except String (List String)
  | [] => .ok []
  | c :: cs =>
      match renderNode enc c with
      | .error e => .error e
      | .ok x =>
        match renderNodes enc cs with
        | .error e => .error e
        | .ok xs => .ok (x ++ xs)

end

/-- `where.to_expression`: children's conditions joined by the connector;
empty string for an empty node. -/
def Where.toExpression (w : Where) (enc : Encoder) : Except String String :=
  match renderNodes enc w.children with
  | .error e => .error e
  | .ok parts => .ok (joinSep (" " ++ w.connector ++ " ") parts)

def Where.clone (w : Where) : Where := { connector := w.connector, children := w.children }

/-- `where.add`: same-connector clauses are merged into the first level,
different connectors push the tree down under a new root.  Python's
`other in self.children` compares `where` objects by identity; the value
embedding uses structural equality (identical objects are structurally equal,
and in `_combine` the freshly built operand is never a child, so the branch
agrees on all combinator-built trees). -/
def Where.add (self other : Where) (conn : String) : Where :=
  if self.children.contains other.toNode && conn == self.connector then self
  else
    let self' := if self.children.length < 2 then { self with connector := conn } else self
    if self'.connector == conn then
      if other.connector == conn || other.children.length ≤ 1 then
        { self' with children := self'.children ++ other.children }
      else
        { self' with children := self'.children ++ [other.toNode] }
    else
      { connector := conn, children := [self'.toNode, other.toNode] }

/-- `where._combine` (`&`/`|`): clone, then `add`. -/
def Where.combine (self other : Where) (conn : String) : Where :=
  self.clone.add other conn

def Where.and (self other : Where) : Where := self.combine other "AND"

def Where.or (self other : Where) : Where := self.combine other "OR"

/-! ### `Query` (simpledb.py 754-892) -/

/-- The query builder.  `pred` is the Python `where` attribute (a Lean
keyword); `nameOnly` marks the `ItemNameQuery` subclass, whose `fields`
property is fixed to `['itemName()']` and whose field setter is a no-op;
`cache` is `_result_cache`, never populated inside this pure model. -/
structure Query where
  domain : String
  pred : Where
  rawFields : List String
  limit : Option Nat
  order : Option (String × String)
  nameOnly : Bool
  cache : Option (List String)

/-- `Query.__init__`. -/
def Query.init (domain : String) : Query :=
  { domain := domain, pred := { connector := "AND", children := [] },
    rawFields := [], limit := none, order := none, nameOnly := false, cache := none }

/-- The `fields` attribute as read (`ItemNameQuery` overrides it with a
constant property). -/
def Query.fields (q : Query) : List String :=
  if q.nameOnly then ["itemName()"] else q.rawFields

/-- `Query._clone`: a fresh query of the same class over the same domain;
copies the predicate tree, fields and ordering — `limit` and `_result_cache`
are reset by `__init__` and not copied. -/
def Query.clone (q : Query) : Query :=
  { domain := q.domain, pred := q.pred.clone,
    rawFields := if q.nameOnly then [] else q.rawFields,
    limit := none, order := q.order, nameOnly := q.nameOnly, cache := none }

/-- `Query.filter` with an already-constructed `where` operand. -/
def Query.filterW (q : Query) (w : Where) : Query :=
  { q.clone with pred := q.pred.and w }

/-- `Query.filter(*args, **kwargs)`. -/
def Query.filter (q : Query) (args : List WNode) (kw : List (String × Val)) :
    Except String Query :=
  (whereInit args kw).map q.filterW

/-- `Query.values` (raises `NotImplementedError` on `ItemNameQuery`). -/
def Query.valuesQ (q : Query) (fs : List String) : Except String Query :=
  if q.nameOnly then .error "NotImplementedError"
  else .ok { q.clone with rawFields := fs }

/-- `Query.order_by`: a `'-'` prefix selects descending order (`field[0]` on
an empty string is an `IndexError`). -/
def Query.orderBy (q : Query) (field : String) : Except String Query :=
  match field.data with
  | [] => .error "IndexError: string index out of range"
  | c :: rest =>
      if c = '-' then .ok { q.clone with order := some (String.mk rest, "DESC") }
      else .ok { q.clone with order := some (field, "ASC") }

/-- `Query.item_names`: clone as an `ItemNameQuery`. -/
def Query.itemNames (q : Query) : Query :=
  { q.clone with nameOnly := true, rawFields := [] }

/-- `Query.all`. -/
def Query.allQ (q : Query) : Query := q.clone

/-- `Query.limit` the builder method (the attribute of the same name is the
structure field). -/
def Query.limitTo (q : Query) (n : Nat) : Query :=
  { q.clone with limit := some n }

/-- `Query.to_expression`: `SELECT <fields|*> FROM <backquoted domain>`, then
`WHERE` only when the predicate tree has children, then `ORDER BY`, then
`LIMIT`, space-joined. -/
def Query.toExpression (q : Query) (enc : Encoder) : Except String String :=
  let outputList := if q.fields.isEmpty then ["*"] else q.fields
  let stmt0 := ["SELECT", joinSep ", " outputList, "FROM", "`" ++ q.domain ++ "`"]
  let withWhere : Except String (List String) :=
    if q.pred.children.isEmpty then .ok stmt0
    else
      match q.pred.toExpression enc with
      | .error e => .error e
      | .ok w => .ok (stmt0 ++ ["WHERE", w])
  match withWhere with
  | .error e => .error e
  | .ok stmt1 =>
    let stmt2 := match q.order with
      | some fd => stmt1 ++ ["ORDER BY", fd.1, fd.2]
      | none => stmt1
    let stmt3 := match q.limit with
      | some n => stmt2 ++ ["LIMIT " ++ toString n]
      | none => stmt2
    .ok (joinSep " " stmt3)

/-! ### Pagination: the `SimpleDB._select` loop (simpledb.py 534-564) -/

/-- A stubbed transport response to one `Select` request: either no
`SelectResult` element, or a result with items and an optional `NextToken`. -/
inductive SelectResp (α : Type) where
  | noResult
  | result (items : List α) (nextToken : Option String)

def itemsOf : SelectResp α → List α
  | .noResult => []
  | .result items _ => items

/-- The request data issued for one page: the base `Select` data, plus the
`NextToken` parameter once a token has been received. -/
def mkSelectReq (base : List (String × String)) : Option String → List (String × String)
  | none => base
  | some t => base ++ [("NextToken", t)]

/-- `SimpleDB._select` run against a stub that answers the n-th request with
the n-th response: yields each page's items in order and re-issues the same
base request with only the continuation token substituted, stopping at the
first response without a token (or without a result element).  Returns the
items yielded and the requests issued.  (The `[]` case models an exhausted
stub; the page-chain hypotheses of the theorems keep it unreachable.) -/
def selectLoop (base : List (String × String)) :
    Option String → List (SelectResp α) → List α × List (List (String × String))
  | _, [] => ([], [])
  | tok, r :: rest =>
    let req := mkSelectReq base tok
    match r with
    | .noResult => ([], [req])
    | .result items none => (items, [req])
    | .result items (some t) =>
        let rec' := selectLoop base (some t) rest
        (items ++ rec'.1, req :: rec'.2)

/-- A finite sequence of pages in which every page except the last carries a
continuation token and the last page carries none. -/
inductive PageChain {α : Type} : List (SelectResp α) → Prop
  | last (items : List α) : PageChain [.result items none]
  | cons (items : List α) (t : String) {rest : List (SelectResp α)} :
      PageChain rest → PageChain (.result items (some t) :: rest)

/-! ### Batch writes: `load_data` (test.py 282-290) over
`SimpleDB.batch_put_attributes` (simpledb.py 408-453) -/

/-- One `BatchPutAttributes` request: `batch_put_attributes` builds a single
`Request` from the domain and the items handed to it. -/
structure BatchPutRequest where
  domain : String
  items : List (String × List (String × String))

/-- The slicing `[items[i:i+25] for i in xrange(0, len(items), 25)]`. -/
def chunks25 (l : List α) : List (List α) := chunksOf 25 l

/-- `load_data`: chunk the items by 25 and issue one batch-write request per
chunk, in order. -/
def loadData (domain : String) (items : List (String × List (String × String))) :
    List BatchPutRequest :=
  (chunks25 items).map fun batch => { domain := domain, items := batch }

/-! ### `NumberField` (models.py 39-65) -/

/-- A value in the attribute dictionary `get_attributes` returns: the `None`
placeholder from `dict.fromkeys`, a single string, or a coalesced list. -/
inductive AttrVal where
  | null
  | one (s : String)
  | many (l : List String)
deriving DecidableEq

def alistSet (k : String) (v : AttrVal) : List (String × AttrVal) → List (String × AttrVal)
  | [] => [(k, v)]
  | kv :: rest => if kv.1 = k then (kv.1, v) :: rest else kv :: alistSet k v rest

def alistGet (k : String) : List (String × AttrVal) → Option AttrVal
  | [] => none
  | kv :: rest => if kv.1 = k then some kv.2 else alistGet k rest

/-- `SimpleDB._parse_attributes`: decode each `Attribute` element's value and
coalesce repeated names into lists.  (The fold starts from an empty
dictionary, so a `null` entry never occurs; that branch is dead.) -/
def parseAttributes (dec : String → String → String) (resp : List (String × String)) :
    List (String × AttrVal) :=
  resp.foldl (fun d kv =>
    let value := dec kv.1 kv.2
    match alistGet kv.1 d with
    | some (.many xs) => alistSet kv.1 (.many (xs ++ [value])) d
    | some (.one x) => alistSet kv.1 (.many [x, value]) d
    | some .null => alistSet kv.1 (.many [value]) d
    | none => alistSet kv.1 (.one value) d) []

/-- `dict.fromkeys(ks)`: each key maps to `None`; duplicates collapse. -/
def dictFromKeys (ks : List String) : List (String × AttrVal) :=
  ks.foldl (fun d k =>
    match alistGet k d with
    | some _ => d
    | none => d ++ [(k, .null)]) []

/-- `dict.update`. -/
def dictUpdate (base upd : List (String × AttrVal)) : List (String × AttrVal) :=
  upd.foldl (fun d kv => alistSet kv.1 kv.2 d) base

/-- `SimpleDB.get_attributes` on a successful (non-error) response carrying
the given `Attribute` name/value pairs: seed the result with
`dict.fromkeys(attributes or [])`, and merge the parsed attributes only when
the `GetAttributesResult` element is truthy, i.e. has child elements.  No
branch raises: an absent item simply yields no `Attribute` elements. -/
def getAttributes (requested : Option (List String)) (dec : String → String → String)
    (respAttrs : List (String × String)) : List (String × AttrVal) :=
  let base := dictFromKeys (requested.getD [])
  if respAttrs.isEmpty then base
  else dictUpdate base (parseAttributes dec respAttrs)

/-! ## Shared concrete instances used by the claims -/

/-- The identity `AttributeEncoder` (`encode` returns the value unchanged). -/
def idEncoder : Encoder := fun _ v => v

/-- `where(a='1') & where(b='2') | where(c='3')`, compiled. -/
def exampleCombined : Except String String := do
  let wa ← whereInit [] [("a", Val.str "1")]
  let wb ← whereInit [] [("b", Val.str "2")]
  let wc ← whereInit [] [("c", Val.str "3")]
  ((wa.and wb).or wc).toExpression idEncoder

/-- The builder chain of testable property 7: domain `users`, filter
`age__lt='25'`, fields `('name','age')`, `order_by('-age')`, `limit(10)`
(limit last — an earlier limit would be dropped by `_clone`). -/
def exampleUsersQuery : Except String Query := do
  let q1 ← (Query.init "users").filter [] [("age__lt", Val.str "25")]
  let q2 ← q1.valuesQ ["name", "age"]
  let q3 ← q2.orderBy "-age"
  pure (q3.limitTo 10)

/-- The `where` built by `where(age__btwn=[1,2,3])` (values as their encoded
strings). -/
def exampleBtwnWhere : Where :=
  ⟨"AND", [.leaf "age" "btwn" (Val.list [.str "1", .str "2", .str "3"])]⟩

/-! ## C10: builder calls drop `limit` -/

/-- The limit of the query produced by a possibly-failing builder call is
`None` (vacuous when the call raises). -/
def limitNone : Except String Query → Prop
  | .ok q' => q'.limit = none
  | .error _ => True

/-- C10: every builder call (`filter`, `values`, `order_by`, `item_names`,
`all`) goes through `_clone`, which copies the predicate tree, the projected
fields and the ordering but resets `limit` (and the result cache) to `None`;
hence a previously set limit is dropped by any later builder call.  (The
original query value itself is untouched: builders operate on the clone.) -/
theorem claim_C10_builders_drop_limit (q : Query) :
    (q.clone.limit = none ∧ q.clone.cache = none ∧ q.clone.pred = q.pred ∧
      q.clone.fields = q.fields ∧ q.clone.order = q.order) ∧
    (∀ (args : List WNode) (kw : List (String × Val)), limitNone (q.filter args kw)) ∧
    (∀ fs : List String, limitNone (q.valuesQ fs)) ∧
    (∀ f : String, limitNone (q.orderBy f)) ∧
    q.itemNames.limit = none ∧
    q.allQ.limit = none := by
  refine ⟨⟨rfl, rfl, rfl, ?_, rfl⟩, ?_, ?_, ?_, rfl, rfl⟩
  · cases hq : q.nameOnly <;> simp [Query.clone, Query.fields, hq]
  · intro args kw
    cases h : whereInit args kw with
    | ok w => simp [Query.filter, h, limitNone, Except.map, Query.filterW, Query.clone]
    | error e => simp [Query.filter, h, limitNone, Except.map]
  · intro fs
    cases hq : q.nameOnly <;> simp [Query.valuesQ, hq, limitNone, Query.clone]
  · intro f
    cases hf : f.data with
    | nil => simp [Query.orderBy, hf, limitNone]
    | cons c rest =>
        by_cases hc : c = '-' <;> simp [Query.orderBy, hf, hc, limitNone, Query.clone]

/-! ## C9: `get_attributes` on an empty response -/

/-- C9 counterexample: with a requested attribute list, an empty response does
not produce an empty attribute set — `dict.fromkeys` seeds the result with
each requested name mapped to `None`. -/
theorem claim_C9_counterexample :
    getAttributes (some ["age"]) (fun _ v => v) [] = [("age", AttrVal.null)] ∧
    [("age", AttrVal.null)] ≠ ([] : List (String × AttrVal)) :=
  ⟨rfl, by decide⟩

theorem alistGet_append (k : String) (a b : List (String × AttrVal)) :
    alistGet k (a ++ b) =
      (match alistGet k a with
       | some v => some v
       | none => alistGet k b) := by
  induction a with
  | nil => simp [alistGet]
  | cons kv rest ih =>
      by_cases h : kv.1 = k <;> simp [alistGet, h, ih]

theorem dictFromKeys_go (ks : List String) :
    ∀ acc : List (String × AttrVal), ks.Nodup → (∀ k ∈ ks, alistGet k acc = none) →
      ks.foldl (fun d k =>
        match alistGet k d with
        | some _ => d
        | none => d ++ [(k, AttrVal.null)]) acc = acc ++ ks.map fun k => (k, AttrVal.null) := by
  induction ks with
  | nil => intro acc _ _; simp
  | cons k t ih =>
      intro acc hnd hnone
      have hk : alistGet k acc = none := hnone k (by simp)
      simp only [List.foldl_cons, hk]
      rw [ih (acc ++ [(k, AttrVal.null)]) (List.Nodup.of_cons hnd)]
      · simp
      · intro k' hk'
        rw [alistGet_append, hnone k' (by simp [hk'])]
        have : k' ≠ k := by
          rintro rfl
          exact (List.nodup_cons.mp hnd).1 hk'
        simp [alistGet, this.symm]

/-- C9 amended: an attribute fetch whose response carries no attributes never
raises; it returns an empty set when no attribute names were requested, and a
dictionary mapping each requested name to `None` when names were supplied. -/
theorem claim_C9_empty_fetch :
    (∀ dec : String → String → String, getAttributes none dec [] = []) ∧
    (∀ (dec : String → String → String) (req : List String),
      getAttributes (some req) dec [] = dictFromKeys req) ∧
    (∀ (dec : String → String → String) (req : List String), req.Nodup →
      getAttributes (some req) dec [] = req.map fun k => (k, AttrVal.null)) := by
  refine ⟨fun _ => rfl, fun _ _ => rfl, fun dec req hnd => ?_⟩
  show dictFromKeys req = _
  unfold dictFromKeys
  rw [dictFromKeys_go req [] hnd (by intro k _; rfl)]
  simp

theorem claim_C9_empty_fetch_witness :
    getAttributes (some ["age", "name"]) (fun _ v => v) [] =
      [("age", AttrVal.null), ("name", AttrVal.null)] :=
  claim_C9_empty_fetch.2.2 (fun _ v => v) ["age", "name"] (by decide)

/-! ## C6: `between` arity validation -/

/-- C6 counterexample: constructing `where(age__btwn=[1,2,3])` does not raise;
`where.__init__` only validates the operator name, so construction succeeds
(the arity error surfaces later, from `_make_btwn_condition`). -/
theorem claim_C6_counterexample :
    whereInit [] [("age__btwn", Val.list [.str "1", .str "2", .str "3"])] =
      .ok exampleBtwnWhere :=
  rfl

/-- C6 amended: the wrong-arity `between` predicate constructs successfully,
and the `ValueError` is raised when the predicate is rendered by
`to_expression` — still before any network request, since `Query._get_results`
compiles the expression before issuing the `Select`. -/
theorem claim_C6_btwn_arity :
    (whereInit [] [("age__btwn", Val.list [.str "1", .str "2", .str "3"])] =
      .ok exampleBtwnWhere) ∧
    ∀ enc : Encoder, exampleBtwnWhere.toExpression enc =
      .error "Invalid value for between clause. Requires two item list." :=
  ⟨rfl, fun _ => rfl⟩

/-! ## C2: `Query.to_expression` clause order -/

/-- C2: the compiled expression is `SELECT <fields|*> FROM <backquoted
domain>`, then `WHERE <predicate>` exactly when the predicate tree has
children, then `ORDER BY <field> <dir>` when an ordering is set, then
`LIMIT <n>` when a limit is set, space-joined in that fixed order; and the
`users` example of testable property 7 compiles to its expected string. -/
theorem claim_C2_compile_order :
    (∀ (q : Query) (enc : Encoder),
      q.toExpression enc = (q.pred.toExpression enc).map fun w =>
        joinSep " "
          ((["SELECT", joinSep ", " (if q.fields.isEmpty then ["*"] else q.fields),
              "FROM", "`" ++ q.domain ++ "`"] ++
            (if q.pred.children.isEmpty then [] else ["WHERE", w])) ++
            ((match q.order with
              | some fd => ["ORDER BY", fd.1, fd.2]
              | none => []) ++
             (match q.limit with
              | some n => ["LIMIT " ++ toString n]
              | none => [])))) ∧
    exampleUsersQuery.bind (fun q => q.toExpression idEncoder) =
      .ok "SELECT name, age FROM `users` WHERE age < '25' ORDER BY age DESC LIMIT 10" := by
  refine ⟨?_, rfl⟩
  intro q enc
  unfold Query.toExpression
  by_cases hch : q.pred.children.isEmpty
  · have hw : q.pred.toExpression enc = .ok "" := by
      unfold Where.toExpression
      rw [List.isEmpty_iff.mp hch]
      rfl
    simp only [hch, hw, if_true, Except.map]
    cases q.order <;> cases q.limit <;> simp [List.append_assoc]
  · cases hw : q.pred.toExpression enc with
    | error e => simp [hch, hw, Except.map]
    | ok w =>
        simp only [hch, hw, if_false, Except.map]
        cases q.order <;> cases q.limit <;> simp [List.append_assoc]

/-! ## C3: `&`/`|` merge/promote -/

/-- C3 counterexample: the combination `where(a=1) & where(b=2) | where(c=3)`
does not compile to `(a = '1' AND b = '2') OR c = '3'` — `to_expression`
parenthesizes every `where`-object child, and the promoted single-leaf operand
`where(c=3)` is such a child, so the code produces
`(a = '1' AND b = '2') OR (c = '3')`. -/
theorem claim_C3_counterexample :
    exampleCombined = .ok "(a = '1' AND b = '2') OR (c = '3')" ∧
    "(a = '1' AND b = '2') OR (c = '3')" ≠ "(a = '1' AND b = '2') OR c = '3'" :=
  ⟨rfl, by decide⟩

/-- C3 amended: merging with the connector equal to the root's connector
flattens the children into one level, and merging with a different connector
creates a new root owning both trees as children; consequently
`where(a=1) & where(b=2) | where(c=3)` compiles to exactly
`(a = '1' AND b = '2') OR (c = '3')` (each `where`-object child, including the
promoted single-leaf operand, is parenthesized). -/
theorem claim_C3_merge_promote :
    (∀ (w₁ w₂ : Where) (conn : String),
      w₁.connector = conn → w₂.connector = conn →
      w₁.children.contains w₂.toNode = false →
      (w₁.combine w₂ conn).connector = conn ∧
      (w₁.combine w₂ conn).children = w₁.children ++ w₂.children) ∧
    (∀ (w₁ w₂ : Where) (conn : String),
      w₁.connector ≠ conn → 2 ≤ w₁.children.length →
      w₁.combine w₂ conn = ⟨conn, [w₁.toNode, w₂.toNode]⟩) ∧
    exampleCombined = .ok "(a = '1' AND b = '2') OR (c = '3')" := by
  refine ⟨?_, ?_, rfl⟩
  · intro w₁ w₂ conn h1 h2 hmem
    subst h1
    simp only [Where.toNode] at hmem
    rw [h2] at hmem
    unfold Where.combine Where.add Where.clone
    by_cases hlen : w₁.children.length < 2 <;>
      simp [hmem, hlen, h2, Where.toNode]
  · intro w₁ w₂ conn hne hlen
    unfold Where.combine Where.add Where.clone
    have h1 : (conn == w₁.connector) = false := by
      simp only [beq_eq_false_iff_ne]
      exact fun h => hne h.symm
    have h2 : (w₁.connector == conn) = false := by
      simp only [beq_eq_false_iff_ne]
      exact hne
    have h3 : ¬ w₁.children.length < 2 := by omega
    simp [h1, h2, h3, Where.toNode]

/-! ## C7: reserved-keyword back-quoting per operator -/

/-- C7 counterexample: `or` uppercases into the reserved-keyword list, yet the
`in` operator renders the attribute without back-quotes
(`_make_in_condition` interpolates the raw attribute name). -/
theorem claim_C7_counterexample :
    strUpper "or" ∈ RESERVED_KEYWORDS ∧
    leafCondition idEncoder "or" "in" (Val.list [Val.str "x"]) = .ok "or in('x')" ∧
    "or in('x')" ≠ "`or` in('x')" :=
  ⟨by decide, rfl, by decide⟩

/-- C7 amended: an attribute whose uppercased form is reserved is back-quoted
only on the generic `_make_condition` path — the comparison/like operators and
`eq`/`noteq` with a non-null value (the eq/noteq paths also encode the value a
second time); the `in`, `between`, and `IS [NOT] NULL` renderings interpolate
the attribute raw, without back-quoting. -/
theorem claim_C7_backquote_paths :
    (∀ f : String, RESERVED_KEYWORDS.contains (strUpper f) = true →
      quoteAttribute f = "`" ++ f ++ "`") ∧
    (∀ (enc : Encoder) (f : String) (v : Val) (s : String), enc f v = .str s →
      ∀ opsym ∈ [("gt", ">"), ("gte", ">="), ("lt", "<"), ("lte", "<="),
        ("like", "like"), ("notlike", "not like")],
        leafCondition enc f opsym.1 v =
          .ok (quoteAttribute f ++ " " ++ opsym.2 ++ " '" ++ pyQuote s ++ "'")) ∧
    (∀ (enc : Encoder) (f : String) (v : Val) (s t : String),
      enc f v = .str s → enc f (.str s) = .str t →
      leafCondition enc f "eq" v =
        .ok (quoteAttribute f ++ " " ++ "=" ++ " '" ++ pyQuote t ++ "'") ∧
      leafCondition enc f "noteq" v =
        .ok (quoteAttribute f ++ " " ++ "!=" ++ " '" ++ pyQuote t ++ "'")) ∧
    (∀ (enc : Encoder) (f : String) (v : Val), enc f v = .null →
      leafCondition enc f "eq" v = .ok (f ++ " IS NULL") ∧
      leafCondition enc f "noteq" v = .ok (f ++ " IS NOT NULL")) ∧
    (∀ (enc : Encoder) (f : String) (vs : List Val) (qs : List String),
      (vs.map (enc f)).mapM quoteValue = .ok qs →
      leafCondition enc f "in" (Val.list vs) =
        .ok (f ++ " " ++ "in" ++ "(" ++ joinSep ", " (qs.map fun q => "'" ++ q ++ "'") ++ ")")) ∧
    (∀ (enc : Encoder) (f : String) (a b : Val) (la lb : String),
      quoteValue (enc f a) = .ok la → quoteValue (enc f b) = .ok lb →
      leafCondition enc f "btwn" (Val.list [a, b]) =
        .ok (f ++ " between '" ++ la ++ "' and '" ++ lb ++ "'")) := by
  refine ⟨?_, ?_, ?_, ?_, ?_, ?_⟩
  · intro f h
    simp only [quoteAttribute, h]
    simp
  · intro enc f v s hv opsym hmem
    fin_cases hmem <;>
      · show makeCondition enc f _ v = _
        simp [makeCondition, hv, quoteValue]
  · intro enc f v s t hv ht
    constructor
    · show makeEqCondition enc f "=" v = _
      simp [makeEqCondition, hv, makeCondition, ht, quoteValue]
    · show makeNoteqCondition enc f "!=" v = _
      simp [makeNoteqCondition, hv, makeCondition, ht, quoteValue]
  · intro enc f v hv
    constructor
    · show makeEqCondition enc f "=" v = _
      simp [makeEqCondition, hv]
    · show makeNoteqCondition enc f "!=" v = _
      simp [makeNoteqCondition, hv]
  · intro enc f vs qs hqs
    show makeInCondition enc f "in" (Val.list vs) = _
    simp only [makeInCondition, valElems]
    rw [hqs]
  · intro enc f a b la lb ha hb
    show makeBtwnCondition enc f "between" (Val.list [a, b]) = _
    simp [makeBtwnCondition, valElems, ha, hb]

/-- C7 witness: the amended claim at the reserved attribute `or` with the
identity encoder. -/
theorem claim_C7_backquote_paths_witness :
    quoteAttribute "or" = "`" ++ "or" ++ "`" ∧
    leafCondition idEncoder "or" "gt" (Val.str "x") =
      .ok (quoteAttribute "or" ++ " " ++ ">" ++ " '" ++ pyQuote "x" ++ "'") ∧
    leafCondition idEncoder "or" "eq" (Val.str "x") =
      .ok (quoteAttribute "or" ++ " " ++ "=" ++ " '" ++ pyQuote "x" ++ "'") ∧
    leafCondition idEncoder "or" "eq" Val.null = .ok ("or" ++ " IS NULL") ∧
    leafCondition idEncoder "or" "in" (Val.list [Val.str "x"]) =
      .ok ("or" ++ " " ++ "in" ++ "(" ++ joinSep ", " (["x"].map fun q => "'" ++ q ++ "'") ++ ")") ∧
    leafCondition idEncoder "or" "btwn" (Val.list [Val.str "1", Val.str "2"]) =
      .ok ("or" ++ " between '" ++ "1" ++ "' and '" ++ "2" ++ "'") :=
  ⟨claim_C7_backquote_paths.1 "or" (by decide),
   claim_C7_backquote_paths.2.1 idEncoder "or" (Val.str "x") "x" rfl ("gt", ">") (by decide),
   (claim_C7_backquote_paths.2.2.1 idEncoder "or" (Val.str "x") "x" "x" rfl rfl).1,
   (claim_C7_backquote_paths.2.2.2.1 idEncoder "or" Val.null rfl).1,
   claim_C7_backquote_paths.2.2.2.2.1 idEncoder "or" [Val.str "x"] ["x"] rfl,
   claim_C7_backquote_paths.2.2.2.2.2 idEncoder "or" (Val.str "1") (Val.str "2") "1" "2" rfl rfl⟩

/-! ## C4: pagination of `_select` -/

def exampleSelectBase : List (String × String) :=
  [("Action", "Select"), ("SelectExpression", "SELECT * FROM `users`")]

/-- A page of 100 rows carrying a continuation token, then a page of one row
without one. -/
def examplePages : List (SelectResp Nat) :=
  [.result (List.range 100) (some "nexttoken"), .result [100] none]

theorem selectLoop_chain_aux {α : Type} (base : List (String × String))
    (pages : List (SelectResp α)) (h : PageChain pages) :
    ∀ tok : Option String,
      (selectLoop base tok pages).1 = (pages.map itemsOf).flatten ∧
      (selectLoop base tok pages).2.length = pages.length ∧
      ∀ req ∈ (selectLoop base tok pages).2, ∃ t, req = mkSelectReq base t := by
  induction h with
  | last items =>
      intro tok
      refine ⟨by simp [selectLoop, itemsOf], by simp [selectLoop], ?_⟩
      intro req hreq
      simp [selectLoop] at hreq
      exact ⟨tok, hreq⟩
  | cons items t h ih =>
      intro tok
      have ht := ih (some t)
      refine ⟨?_, ?_, ?_⟩
      · simp [selectLoop, itemsOf, ht.1]
      · simp [selectLoop, ht.2.1]
      · intro req hreq
        simp only [selectLoop, List.mem_cons] at hreq
        rcases hreq with rfl | hmem
        · exact ⟨tok, rfl⟩
        · exact ht.2.2 req hmem

/-- C4: over a finite page sequence where every page but the last carries a
continuation token, the `_select` loop yields exactly the concatenation of the
pages' items in order, issues exactly one request per page, and every request
is the base `Select` data with only the `NextToken` field substituted; the
100-row/1-row stub yields 101 items via 2 requests. -/
theorem claim_C4_pagination :
    (∀ {α : Type} (pages : List (SelectResp α)) (base : List (String × String)),
      PageChain pages →
      (selectLoop base none pages).1 = (pages.map itemsOf).flatten ∧
      (selectLoop base none pages).2.length = pages.length ∧
      ∀ req ∈ (selectLoop base none pages).2, ∃ t, req = mkSelectReq base t) ∧
    ((selectLoop exampleSelectBase none examplePages).1.length = 101 ∧
     (selectLoop exampleSelectBase none examplePages).2.length = 2) :=
  ⟨fun pages base h => selectLoop_chain_aux base pages h none, by decide, by decide⟩

/-- C4 witness: the pagination theorem applied to the concrete two-page stub. -/
theorem claim_C4_pagination_witness :
    (selectLoop exampleSelectBase none examplePages).1 = (examplePages.map itemsOf).flatten ∧
    (selectLoop exampleSelectBase none examplePages).2.length = examplePages.length ∧
    ∀ req ∈ (selectLoop exampleSelectBase none examplePages).2,
      ∃ t, req = mkSelectReq exampleSelectBase t :=
  claim_C4_pagination.1 examplePages exampleSelectBase
    (PageChain.cons (List.range 100) "nexttoken" (PageChain.last [100]))

/-! ## C5: batch chunking -/

theorem chunksAux_flatten {α : Type} (k : Nat) (hk : 1 ≤ k) :
    ∀ (fuel : Nat) (l : List α), l.length ≤ fuel → (chunksAux k fuel l).flatten = l := by
  intro fuel
  induction fuel with
  | zero =>
      intro l hl
      have : l = [] := List.eq_nil_of_length_eq_zero (by omega)
      subst this
      simp [chunksAux]
  | succ fuel ih =>
      intro l hl
      cases l with
      | nil => simp [chunksAux]
      | cons x xs =>
          simp only [chunksAux, List.flatten_cons]
          rw [ih ((x :: xs).drop k) ?_]
          · exact List.take_append_drop k (x :: xs)
          · simp only [List.length_cons] at hl
            simp only [List.length_drop, List.length_cons]
            omega

theorem chunksAux_bounded {α : Type} (k : Nat) (hk : 1 ≤ k) :
    ∀ (fuel : Nat) (l : List α), l.length ≤ fuel → ∀ c ∈ chunksAux k fuel l, c.length ≤ k := by
  intro fuel
  induction fuel with
  | zero =>
      intro l hl
      have : l = [] := List.eq_nil_of_length_eq_zero (by omega)
      subst this
      simp [chunksAux]
  | succ fuel ih =>
      intro l hl
      cases l with
      | nil => simp [chunksAux]
      | cons x xs =>
          simp only [chunksAux, List.mem_cons]
          rintro c (rfl | hmem)
          · simp [List.length_take]
          · refine ih ((x :: xs).drop k) ?_ c hmem
            simp only [List.length_cons] at hl
            simp only [List.length_drop, List.length_cons]
            omega

def example60Items : List (String × List (String × String)) :=
  (List.range 60).map fun i => (toString i, [("age", toString i)])

/-- C5: `load_data` partitions the ordered item list into consecutive chunks
of at most 25 items whose concatenation (in order) is the original list, and
issues exactly one batch-write request per chunk; a 60-item list becomes
chunks of 25, 25 and 10 items issued as 3 requests. -/
theorem claim_C5_batch_chunks :
    (∀ (domain : String) (items : List (String × List (String × String))),
      (chunks25 items).flatten = items ∧
      (∀ c ∈ chunks25 items, c.length ≤ 25) ∧
      loadData domain items = (chunks25 items).map (fun b => ⟨domain, b⟩) ∧
      (loadData domain items).length = (chunks25 items).length) ∧
    ((chunks25 example60Items).map List.length = [25, 25, 10] ∧
     (loadData "users" example60Items).length = 3 ∧
     (chunks25 example60Items).flatten = example60Items) := by
  refine ⟨fun domain items => ⟨?_, ?_, rfl, ?_⟩, by decide, by decide, by decide⟩
  · exact chunksAux_flatten 25 (by omega) items.length items (le_refl _)
  · exact chunksAux_bounded 25 (by omega) items.length items (le_refl _)
  · simp [loadData]

/-- C5 witness: the chunking theorem applied to the concrete 60-item list. -/
theorem claim_C5_batch_chunks_witness :
    (chunks25 example60Items).flatten = example60Items ∧
    (∀ c ∈ chunks25 example60Items, c.length ≤ 25) ∧
    loadData "users" example60Items = (chunks25 example60Items).map (fun b => ⟨"users", b⟩) ∧
    (loadData "users" example60Items).length = (chunks25 example60Items).length :=
  claim_C5_batch_chunks.1 "users" example60Items

/-! ## C3 witness material -/

def exampleWhereA : Where := ⟨"AND", [.leaf "a" "eq" (Val.str "1")]⟩

def exampleWhereB : Where := ⟨"AND", [.leaf "b" "eq" (Val.str "2")]⟩

def exampleWhereAB : Where :=
  ⟨"AND", [.leaf "a" "eq" (Val.str "1"), .leaf "b" "eq" (Val.str "2")]⟩

def exampleWhereC : Where := ⟨"AND", [.leaf "c" "eq" (Val.str "3")]⟩

/-- C3 witness: the flatten and promote branches at the `where(a=1)`,
`where(b=2)`, `where(c=3)` trees. -/
theorem claim_C3_merge_promote_witness :
    ((exampleWhereA.combine exampleWhereB "AND").connector = "AND" ∧
      (exampleWhereA.combine exampleWhereB "AND").children =
        exampleWhereA.children ++ exampleWhereB.children) ∧
    exampleWhereAB.combine exampleWhereC "OR" =
      ⟨"OR", [exampleWhereAB.toNode, exampleWhereC.toNode]⟩ :=
  ⟨claim_C3_merge_promote.1 exampleWhereA exampleWhereB "AND" rfl rfl (by decide),
   claim_C3_merge_promote.2.1 exampleWhereAB exampleWhereC "OR" (by decide) (by decide)⟩

/-! ## C1: the canonical signature base string and HMAC signature -/

theorem listLtB_self (l : List Char) : listLtB l l = false := by
  induction l with
  | nil => rfl
  | cons c cs ih => rw [listLtB, if_neg (lt_irrefl c), if_neg (lt_irrefl c), ih]

theorem pyStrLt_self (s : String) : pyStrLt s s = false := listLtB_self s.data

theorem mem_insertLeB (le : α → α → Bool) (x y : α) (l : List α) :
    y ∈ insertLeB le x l ↔ y = x ∨ y ∈ l := by
  induction l with
  | nil => simp [insertLeB]
  | cons z zs ih =>
      simp only [insertLeB]
      by_cases h : le x z
      · simp [h]
      · simp only [h, if_false, Bool.false_eq_true, List.mem_cons, ih]
        tauto

theorem mem_sortLeB (le : α → α → Bool) (y : α) (l : List α) :
    y ∈ sortLeB le l ↔ y ∈ l := by
  induction l with
  | nil => simp [sortLeB]
  | cons x xs ih => simp [sortLeB, mem_insertLeB, ih]

theorem insertLeB_congr (f g : α → α → Bool) (x : α) (l : List α)
    (h : ∀ y ∈ l, f x y = g x y) : insertLeB f x l = insertLeB g x l := by
  induction l with
  | nil => rfl
  | cons z zs ih =>
      simp only [insertLeB]
      rw [h z (by simp)]
      by_cases hz : g x z
      · simp [hz]
      · simp only [hz, if_false, Bool.false_eq_true]
        rw [ih fun y hy => h y (by simp [hy])]

theorem sortLeB_congr (f g : α → α → Bool) (l : List α)
    (h : ∀ a ∈ l, ∀ b ∈ l, f a b = g a b) : sortLeB f l = sortLeB g l := by
  induction l with
  | nil => rfl
  | cons x xs ih =>
      simp only [sortLeB]
      rw [ih fun a ha b hb => h a (by simp [ha]) b (by simp [hb])]
      exact insertLeB_congr f g x _ fun y hy =>
        h x (by simp) y (by simp [(mem_sortLeB g y xs).mp hy])

theorem eq_of_mem_nodup_keys {β : Type} (l : List (String × β))
    (hnd : (l.map Prod.fst).Nodup) :
    ∀ a ∈ l, ∀ b ∈ l, a.1 = b.1 → a = b := by
  induction l with
  | nil => simp
  | cons p t ih =>
      simp only [List.map_cons, List.nodup_cons] at hnd
      intro a ha b hb hab
      rcases List.mem_cons.mp ha with rfl | ha' <;> rcases List.mem_cons.mp hb with rfl | hb'
      · rfl
      · exfalso
        apply hnd.1
        rw [hab]
        exact List.mem_map_of_mem Prod.fst hb'
      · exfalso
        apply hnd.1
        rw [← hab]
        exact List.mem_map_of_mem Prod.fst ha'
      · exact ih hnd.2 a ha' b hb' hab

/-- On a parameter list with distinct keys, Python's tuple comparison agrees
with comparison by parameter name. -/
theorem pairLe_agree_nodup (l : List (String × String))
    (hnd : (l.map Prod.fst).Nodup) :
    ∀ a ∈ l, ∀ b ∈ l, pairLe a b = keyLe a b := by
  intro a ha b hb
  by_cases hk : a.1 = b.1
  · have hab : a = b := eq_of_mem_nodup_keys l hnd a ha b hb hk
    subst hab
    simp [pairLe, keyLe, pyStrLt_self]
  · have h1 : (a.1 == b.1) = false := by simp [hk]
    simp [pairLe, keyLe, h1]

/-- C1: the canonical signature base string is the newline-join of the
uppercased method, the lowercased host, the path (or `/` when empty), and the
non-`Signature` parameters sorted by parameter name and `k=v`-joined with `&`
under percent-encoding that leaves `-`, `_` and `~` unescaped; and the
signature is the base64 of the HMAC-SHA256 digest of that base string under
the secret.  All functions here are pure, so fixed inputs (including a fixed
timestamp parameter) reproduce the identical signature byte for byte. -/
theorem claim_C1_signature (method url secret : String)
    (params : List (String × String)) (hnd : (params.map Prod.fst).Nodup) :
    buildSignatureBaseString ⟨method, url, params⟩ =
      joinSep "\n" [strUpper method, strLower (urlparseHostPath url).1,
        (if (urlparseHostPath url).2 = "" then "/" else (urlparseHostPath url).2),
        joinSep "&" ((sortLeB keyLe (params.filter fun p => p.1 != "Signature")).map
          fun p => escape p.1 ++ "=" ++ escape p.2)] ∧
    escape "-" = "-" ∧ escape "_" = "_" ∧ escape "~" = "~" ∧
    buildSignature ⟨method, url, params⟩ secret =
      base64Encode (hmacSha256 (utf8Encode secret)
        (utf8Encode (buildSignatureBaseString ⟨method, url, params⟩))) := by
  refine ⟨?_, by decide, by decide, by decide, rfl⟩
  have hnd' : ((params.filter fun p => p.1 != "Signature").map Prod.fst).Nodup :=
    List.Nodup.sublist (List.Sublist.map Prod.fst (List.filter_sublist params)) hnd
  unfold buildSignatureBaseString Request.getNormalizedParameters urlencode
    Request.getNormalizedHttpMethod Request.getNormalizedHttpHost Request.getNormalizedHttpPath
  rw [sortLeB_congr pairLe keyLe _ (pairLe_agree_nodup _ hnd')]

/-- C1 witness: the signature theorem at a concrete request. -/
theorem claim_C1_signature_witness :
    buildSignatureBaseString ⟨"post", "https://sdb.amazonaws.com", [("Action", "Select"), ("B", "2")]⟩ =
      joinSep "\n" [strUpper "post",
        strLower (urlparseHostPath "https://sdb.amazonaws.com").1,
        (if (urlparseHostPath "https://sdb.amazonaws.com").2 = "" then "/"
          else (urlparseHostPath "https://sdb.amazonaws.com").2),
        joinSep "&" ((sortLeB keyLe ([("Action", "Select"), ("B", "2")].filter
            fun p => p.1 != "Signature")).map
          fun p => escape p.1 ++ "=" ++ escape p.2)] ∧
    escape "-" = "-" ∧ escape "_" = "_" ∧ escape "~" = "~" ∧
    buildSignature ⟨"post", "https://sdb.amazonaws.com", [("Action", "Select"), ("B", "2")]⟩ "secret" =
      base64Encode (hmacSha256 (utf8Encode "secret")
        (utf8Encode (buildSignatureBaseString
          ⟨"post", "https://sdb.amazonaws.com", [("Action", "Select"), ("B", "2")]⟩))) :=
  claim_C1_signature "post" "https://sdb.amazonaws.com" "secret"
    [("Action", "Select"), ("B", "2")] (by decide)

/-! ## C8: the `NumberField` codec -/

end SDB
